import Mathlib

/-!
Shallow embedding of the yt-scanner multi-stream analysis coordination engine:
the Pattern Validator (`src/services/analysis/giftcode.ts`), the detector
adapters (`VideoAnalyzer.analyzeVideo`, `AudioAnalyzer.analyzeAudio`,
`TranscriptAnalyzer.analyzeTranscript`) and the Stream Coordinator /
Result Aggregator (`ProcessCoordinator` in `src/services/queue/cloud-tasks.ts`).

Conventions of the embedding:
* JS numbers are modelled as exact rationals (`ℚ`); floating-point rounding of
  the host language is out of scope.
* JS strings are modelled as Lean `String`s, operated on through their
  character lists (`String.data`), with ASCII semantics for case conversion
  (the inputs of interest are ASCII).
* `async` provider calls and `try`/`catch` around them are modelled by
  passing the outcome of the provider pipeline as an `Except String _`
  argument: `.ok` is the value the `try` block receives, `.error` is a thrown
  exception.
* The fixed-length gift-code regexes are modelled as lists of character
  predicates scanned left to right with the `lastIndex` advancing past each
  match, which is `RegExp.exec` behaviour for these patterns (each pattern is
  a sequence of single-character classes, so no backtracking ambiguity
  exists).
-/

namespace YtScanner

/-- `BoundingBox` from `src/utils/logger.ts` ("types"): spatial origin of a
detection in a source frame. -/
structure BoundingBox where
  x : ℚ
  y : ℚ
  width : ℚ
  height : ℚ
deriving DecidableEq, Repr

/-- One monetary-marker detection (`MonetaryDetection`); `detectGiftCodes`
never reads these, they ride along inside `OCRResult`. Only the fields the
frame pipeline writes are kept. -/
structure MonetaryDetection where
  amount : ℚ
  currency : String
  confidence : ℚ
  boundingBox : BoundingBox
deriving DecidableEq, Repr

/-- `OCRResult` from the types module: one recognized text block. -/
structure OCRResult where
  text : String
  confidence : ℚ
  boundingBox : BoundingBox
  monetaryValues : List MonetaryDetection
deriving DecidableEq, Repr

/-- `GiftCodeDetection` from the types module: one validated candidate code. -/
structure GiftCodeDetection where
  code : String
  confidence : ℚ
  boundingBox : BoundingBox
  timestamp : ℚ
  /-- `'video-frame' | 'thumbnail'` in the source. -/
  source : String
  rawText : String
  detectionMethod : String
deriving DecidableEq, Repr

/-! ## Character and string helpers (JS semantics) -/

/-- The `[A-Z0-9]` character class of the gift-code regexes. -/
def isAlnumUpper (c : Char) : Bool := c.isUpper || c.isDigit

/-- The characters matched by `\s` (JS whitespace class, ASCII part). -/
def isJsWhitespace (c : Char) : Bool :=
  c == ' ' || c == '\t' || c == '\n' || c == '\r' || c == '\x0b' || c == '\x0c'

/-- `text.toUpperCase()` (ASCII). -/
def jsToUpperCase (s : String) : String := String.mk (s.data.map Char.toUpper)

/-- `text.toLowerCase()` (ASCII). -/
def jsToLowerCase (s : String) : String := String.mk (s.data.map Char.toLower)

/-- Does `pat` occur as the initial run of `s`?  (prefix test used to build
`String.prototype.includes`). -/
def matchesFront : List Char → List Char → Bool
  | [], _ => true
  | _ :: _, [] => false
  | a :: as, b :: bs => a == b && matchesFront as bs

/-- Does `sub` occur as a contiguous run anywhere in the list?  Models
`String.prototype.includes` / JS substring search. -/
def containsSeq (sub : List Char) : List Char → Bool
  | [] => matchesFront sub []
  | c :: cs => matchesFront sub (c :: cs) || containsSeq sub cs

/-- `s.includes(sub)` on JS strings. -/
def jsIncludes (s : String) (sub : String) : Bool := containsSeq sub.data s.data

/-- `Math.round` (half goes toward `+∞`), applied to an exact rational. -/
def jsRound (x : ℚ) : ℤ := ⌊x + 1/2⌋

/-! ## Fixed-length regex patterns as character-predicate lists -/

/-- Prefix match of a list of single-character classes. -/
def matchesAt : List (Char → Bool) → List Char → Bool
  | [], _ => true
  | _ :: _, [] => false
  | p :: ps, c :: cs => p c && matchesAt ps cs

/-- Anchored (`^...$`) match of a fixed-length pattern. -/
def matchesExact (pat : List (Char → Bool)) (cs : List Char) : Bool :=
  cs.length == pat.length && matchesAt pat cs

/-- `-` separator class. -/
def sepDash : Char → Bool := fun c => c == '-'

/-- `\s` separator class. -/
def sepSpace : Char → Bool := isJsWhitespace

/-- `[_-]` separator class. -/
def sepMixed : Char → Bool := fun c => c == '_' || c == '-'

/-- `[A-Z0-9]{4} sep [A-Z0-9]{6} sep [A-Z0-9]{4}` (length 16). -/
def groupedPattern (sep : Char → Bool) : List (Char → Bool) :=
  List.replicate 4 isAlnumUpper ++ [sep] ++
  List.replicate 6 isAlnumUpper ++ [sep] ++
  List.replicate 4 isAlnumUpper

/-- `[A-Z0-9]{14}` (length 14). -/
def compactPattern : List (Char → Bool) := List.replicate 14 isAlnumUpper

/-- Successive non-overlapping matches of a fixed-length pattern, scanning
left to right: `RegExp.exec` in a `while` loop with the `g` flag. -/
def scanPattern (pat : List (Char → Bool)) : List Char → List (List Char)
  | [] => []
  | c :: cs =>
    if matchesAt pat (c :: cs) then
      (c :: cs).take pat.length :: scanPattern pat (cs.drop (pat.length - 1))
    else
      scanPattern pat cs
termination_by cs => cs.length
decreasing_by
  · simp only [List.length_drop, List.length_cons]
    omega
  · simp only [List.length_cons]
    omega

/-! ## GiftCodeDetectionService (`src/services/analysis/giftcode.ts`) -/

/-- `code.replace(/[-_\s]/g, '')`: strip all separators. -/
def stripSeparators (code : String) : String :=
  String.mk (code.data.filter (fun c => !(c == '-' || c == '_' || isJsWhitespace c)))

/-- `normalizeGiftCode`: strip separators, then format as `XXXX-XXXXXX-XXXX`
(`slice(0,4)`, `slice(4,10)`, `slice(10,14)`). -/
def normalizeGiftCode (code : String) : String :=
  let cleanCode := (stripSeparators code).data
  String.mk (cleanCode.take 4) ++ "-" ++
  String.mk ((cleanCode.drop 4).take 6) ++ "-" ++
  String.mk ((cleanCode.drop 10).take 4)

/-- `isValidAmazonGiftCode`: the separator-stripped code must be exactly 14
alphanumeric characters.  The excluded-character check in the source computes
`hasExcludedChars` but never uses it (the comment says such codes only get a
lower confidence), so the function returns `true` past the two tests. -/
def isValidAmazonGiftCode (code : String) : Bool :=
  let cleanCode := stripSeparators code
  if cleanCode.data.length != 14 then false
  else if !(matchesExact compactPattern cleanCode.data) then false
  else true

/-- The `excludedChars` list `['0', 'O', 'I', '1']` of the source. -/
def excludedChars : List Char := ['0', 'O', 'I', '1']

/-- `/(.)\1{3,}/.test code`: some character repeated 4+ times consecutively. -/
def hasRepeatedChars : List Char → Bool
  | a :: b :: c :: d :: rest =>
    (a == b && b == c && c == d) || hasRepeatedChars (b :: c :: d :: rest)
  | _ => false

/-- `/(?:ABCD|1234|EFGH)/.test code`. -/
def hasSequential (cs : List Char) : Bool :=
  containsSeq ("ABCD").data cs || containsSeq ("1234").data cs ||
  containsSeq ("EFGH").data cs

/-- `hasTypicalAmazonPattern`: no 4+ repeated run and no known sequential
run. -/
def hasTypicalAmazonPattern (code : String) : Bool :=
  if hasRepeatedChars code.data then false
  else if hasSequential code.data then false
  else true

/-- `/^[A-Z0-9]{4}-[A-Z0-9]{6}-[A-Z0-9]{4}$/.test code`. -/
def dashedFormatExact (code : String) : Bool :=
  matchesExact (groupedPattern sepDash) code.data

/-- `calculateCodeConfidence`: start from the OCR confidence; `+0.1` for the
canonical dashed format; `-0.05` for each member of `excludedChars` that
occurs in the separator-stripped code (`filter`/`includes`: counted once per
excluded character, not per occurrence); `+0.05` when
`hasTypicalAmazonPattern` holds; clamp with
`Math.max(0.1, Math.min(1.0, confidence))`. -/
def calculateCodeConfidence (code : String) (ocrConfidence : ℚ) : ℚ :=
  let confidence := ocrConfidence
  let confidence := if dashedFormatExact code then confidence + 1/10 else confidence
  let cleanCode := stripSeparators code
  let excludedCount :=
    (excludedChars.filter (fun ch => cleanCode.data.contains ch)).length
  let confidence := confidence - (excludedCount : ℚ) * (1/20)
  let confidence :=
    if hasTypicalAmazonPattern cleanCode then confidence + 1/20 else confidence
  max (1/10) (min 1 confidence)

/-- `getDetectionMethod`: classify a source regex by substring tests on its
`toString()`.  (Every pattern string contains `A-Z`, so the first test
matches for all four patterns in the source.) -/
def getDetectionMethod (patternStr : String) : String :=
  if jsIncludes patternStr ("-") then "hyphen-separated"
  else if jsIncludes patternStr ("\\s") then "space-separated"
  else if jsIncludes patternStr ("[_-]") then "mixed-separators"
  else if jsIncludes patternStr ("\x7b14\x7d") then "compact-format"
  else "unknown"

/-- One entry of the `patterns` array: the compiled character-class list plus
the `toString()` text the source hands to `getDetectionMethod`. -/
structure CodePattern where
  pat : List (Char → Bool)
  patternStr : String

/-- The `patterns` array of `detectGiftCodes`, in source order: dashed,
space-separated, compact, mixed-separator. -/
def giftCodePatterns : List CodePattern :=
  [ ⟨groupedPattern sepDash,
      "/([A-Z0-9]\x7b4\x7d-[A-Z0-9]\x7b6\x7d-[A-Z0-9]\x7b4\x7d)/g"⟩,
    ⟨groupedPattern sepSpace,
      "/([A-Z0-9]\x7b4\x7d\\s[A-Z0-9]\x7b6\x7d\\s[A-Z0-9]\x7b4\x7d)/g"⟩,
    ⟨compactPattern, "/([A-Z0-9]\x7b14\x7d)/g"⟩,
    ⟨groupedPattern sepMixed,
      "/([A-Z0-9]\x7b4\x7d[_-][A-Z0-9]\x7b6\x7d[_-][A-Z0-9]\x7b4\x7d)/g"⟩ ]

/-- The loop body of `removeDuplicateCodes`, with `seen` the set of
normalized codes already kept (as a list; only membership is used). -/
def removeDuplicateCodesAux (seen : List String) :
    List GiftCodeDetection → List GiftCodeDetection
  | [] => []
  | code :: rest =>
    let normalizedCode := normalizeGiftCode code.code
    if normalizedCode ∈ seen then
      removeDuplicateCodesAux seen rest
    else
      code :: removeDuplicateCodesAux (normalizedCode :: seen) rest

/-- `removeDuplicateCodes`: keep the first detection for each normalized
code. -/
def removeDuplicateCodes (codes : List GiftCodeDetection) : List GiftCodeDetection :=
  removeDuplicateCodesAux [] codes

/-- The inner loops of `detectGiftCodes` for one `ocrResult`: uppercase the
text, run the four patterns over it, and build one `GiftCodeDetection` per
match that passes `isValidAmazonGiftCode`.  (`match[0] = match[1]` here
because each regex is one parenthesized group spanning the whole match.) -/
def scanOCRResult (timestamp : Option ℚ) (ocrResult : OCRResult) :
    List GiftCodeDetection :=
  let text := jsToUpperCase ocrResult.text
  giftCodePatterns.flatMap (fun pattern =>
    (scanPattern pattern.pat text.data).filterMap (fun m =>
      let code := String.mk m
      if isValidAmazonGiftCode code then
        some { code := normalizeGiftCode code
               confidence := calculateCodeConfidence code ocrResult.confidence
               boundingBox := ocrResult.boundingBox
               timestamp := timestamp.getD 0
               source := "video-frame"
               rawText := code
               detectionMethod := getDetectionMethod pattern.patternStr }
      else none))

/-- `detectGiftCodes(ocrResults, videoId, timestamp?)`: collect the per-OCR
candidates in order, then `removeDuplicateCodes`.  `timestamp || 0` is
`Option.getD 0` (the timestamp is a nonnegative frame time).  `videoId` is
only used for logging. -/
def detectGiftCodes (ocrResults : List OCRResult) (_videoId : String)
    (timestamp : Option ℚ) : List GiftCodeDetection :=
  removeDuplicateCodes (ocrResults.flatMap (scanOCRResult timestamp))

/-! ## Detector result types (`src/utils/logger.ts` types) -/

/-- `LaughterDetection`: one audio laughter peak. -/
structure LaughterDetection where
  startTime : ℚ
  endTime : ℚ
  confidence : ℚ
  intensity : ℚ
  /-- `'ksi_laugh' | 'general_laughter'`. -/
  type : String
deriving DecidableEq, Repr

/-- `TranscriptSegment`: one caption segment. -/
structure TranscriptSegment where
  text : String
  startTime : ℚ
  endTime : ℚ
  confidence : ℚ
  keywords : List String
deriving DecidableEq, Repr

/-- `AudioSegment`: one transcribed audio window. -/
structure AudioSegment where
  startTime : ℚ
  endTime : ℚ
  transcription : String
  confidence : ℚ
deriving DecidableEq, Repr

/-- `FrameAnalysisResult`: one sampled frame with its OCR output (the
`objects`/`faces` fields are always empty in this pipeline and are omitted). -/
structure FrameAnalysisResult where
  frameNumber : ℕ
  timestamp : ℚ
  ocrResults : List OCRResult
deriving DecidableEq, Repr

/-- `BehaviorDetection` (always absent from this pipeline's results; kept so
the adapter output shape matches the source). -/
structure BehaviorDetection where
  type : String
  confidence : ℚ
  timestamp : ℚ
  duration : ℚ
deriving DecidableEq, Repr

/-! ## Detector adapters

Each adapter wraps its provider pipeline in `try`/`catch`.  The pipeline
outcome (everything that can throw inside the `try` block) is passed as an
`Except String _` value. -/

/-- Return shape of `AudioAnalyzer.analyzeAudio`. -/
structure AudioAnalysisOutput where
  laughterPeaks : List LaughterDetection
  suspiciousAudioSegments : List AudioSegment
deriving DecidableEq, Repr

/-- `AudioAnalyzer.analyzeAudio`: on any pipeline error (extraction,
transcription), the `catch` returns empty result lists. -/
def analyzeAudio
    (pipeline : Except String (List LaughterDetection × List AudioSegment)) :
    AudioAnalysisOutput :=
  match pipeline with
  | .ok (laughterPeaks, suspiciousSegments) =>
    { laughterPeaks := laughterPeaks
      suspiciousAudioSegments := suspiciousSegments }
  | .error _ => { laughterPeaks := [], suspiciousAudioSegments := [] }

/-- Return shape of `TranscriptAnalyzer.analyzeTranscript`. -/
structure TranscriptAnalysisOutput where
  segments : List TranscriptSegment
  keywords : List String
  suspiciousSegments : List TranscriptSegment
deriving DecidableEq, Repr

/-- `TranscriptAnalyzer.analyzeTranscript`: fetch the caption track; `null`
or empty text yields empty results; otherwise parse into segments and derive
keyword data; the `catch` returns empty results on any thrown error.  The
pure helpers `parseTranscript`, `findSuspiciousSegments` and
`extractKeywords` of the class are abstracted as function parameters (no
claim depends on their bodies). -/
def analyzeTranscript (fetched : Except String (Option String))
    (parseTranscript : String → List TranscriptSegment)
    (findSuspiciousSegments : List TranscriptSegment → List TranscriptSegment)
    (extractKeywords : List TranscriptSegment → List String) :
    TranscriptAnalysisOutput :=
  match fetched with
  | .error _ => { segments := [], keywords := [], suspiciousSegments := [] }
  | .ok none => { segments := [], keywords := [], suspiciousSegments := [] }
  | .ok (some transcript) =>
    if transcript.data.length = 0 then
      { segments := [], keywords := [], suspiciousSegments := [] }
    else
      let segments := parseTranscript transcript
      { segments := segments
        keywords := extractKeywords segments
        suspiciousSegments := findSuspiciousSegments segments }

/-- Return shape of `VideoAnalyzer.analyzeVideo`. -/
structure VideoAnalysisOutput where
  giftCodes : List GiftCodeDetection
  laughterEvents : List LaughterDetection
  behaviorEvents : List BehaviorDetection
  frameAnalysis : List FrameAnalysisResult
deriving DecidableEq, Repr

/-- `VideoAnalyzer.removeDuplicateGiftCodes`: dedup keyed on the stored
`code` field (first kept). -/
def removeDuplicateGiftCodesAux (seen : List String) :
    List GiftCodeDetection → List GiftCodeDetection
  | [] => []
  | code :: rest =>
    if code.code ∈ seen then removeDuplicateGiftCodesAux seen rest
    else code :: removeDuplicateGiftCodesAux (code.code :: seen) rest

/-- `VideoAnalyzer.removeDuplicateGiftCodes`. -/
def removeDuplicateGiftCodes (codes : List GiftCodeDetection) :
    List GiftCodeDetection :=
  removeDuplicateGiftCodesAux [] codes

/-- `VideoAnalyzer.extractGiftCodesFromFrames`: run `detectGiftCodes` per
frame at the frame's timestamp, then dedup across frames.  (Its own `catch`
returns `[]`, unreachable for this pure body.) -/
def extractGiftCodesFromFrames (frameAnalysis : List FrameAnalysisResult)
    (videoId : String) : List GiftCodeDetection :=
  removeDuplicateGiftCodes
    (frameAnalysis.flatMap (fun frame =>
      detectGiftCodes frame.ocrResults videoId (some frame.timestamp)))

/-- `VideoAnalyzer.analyzeVideo`: download + frame extraction + OCR are the
pipeline; on success the result is built from the frame analysis, but on a
thrown error the `catch` logs and **rethrows** (`throw error`). -/
def analyzeVideo (pipeline : Except String (List FrameAnalysisResult))
    (videoId : String) : Except String VideoAnalysisOutput :=
  match pipeline with
  | .error e => .error e
  | .ok frameAnalysis =>
    .ok { giftCodes := extractGiftCodesFromFrames frameAnalysis videoId
          laughterEvents := []
          behaviorEvents := []
          frameAnalysis := frameAnalysis }

/-- `VideoAnalyzer.analyzeVideoSegment` rethrows like `analyzeVideo`, but its
caller `ProcessCoordinator.analyzeVideoSegment` catches and returns empty
lists; this is that caller's behaviour. -/
def coordinatorAnalyzeVideoSegment
    (pipeline : Except String (List GiftCodeDetection × List FrameAnalysisResult)) :
    List GiftCodeDetection × List FrameAnalysisResult :=
  match pipeline with
  | .ok r => r
  | .error _ => ([], [])

/-! ## ProcessCoordinator (`src/services/queue/cloud-tasks.ts`) -/

/-- `'pending' | 'running' | 'completed' | 'failed'`. -/
inductive ProcessStatus
  | pending
  | running
  | completed
  | failed
deriving DecidableEq, Repr

/-- `'full-video' | 'audio' | 'transcript' | 'targeted-video'`. -/
inductive ProcessType
  | fullVideo
  | audio
  | transcript
  | targetedVideo
deriving DecidableEq, Repr

/-- `LaughTimestamp`: a time-anchored event extracted from the audio or
transcript process. -/
structure LaughTimestamp where
  timestamp : ℚ
  confidence : ℚ
  /-- `'audio' | 'transcript'`. -/
  source : String
  context : Option String := none
deriving DecidableEq, Repr

/-- The kind-specific `result: any` payload of an `AnalysisProcess`, as a
record of the optional fields the coordinator actually reads and writes
(duck typing of the source's `any`). -/
structure ProcessResult where
  giftCodes : Option (List GiftCodeDetection) := none
  frameAnalysis : Option (List FrameAnalysisResult) := none
  laughterPeaks : Option (List LaughterDetection) := none
  suspiciousSegments : Option (List AudioSegment) := none
  segments : Option (List TranscriptSegment) := none
  laughSegments : Option (List TranscriptSegment) := none
  keywords : Option (List String) := none
  timeRange : Option (ℚ × ℚ) := none
  laughTimestamp : Option LaughTimestamp := none
deriving DecidableEq, Repr

/-- `AnalysisProcess`: one unit of concurrent work. -/
structure AnalysisProcess where
  id : String
  type : ProcessType
  status : ProcessStatus
  startTime : ℚ
  endTime : Option ℚ := none
  result : Option ProcessResult := none
  error : Option String := none
deriving DecidableEq, Repr

/-- Creation of a process record at dispatch time (`status: 'pending'`, no
end time, no result, no error). -/
def mkProcess (id : String) (type : ProcessType) (now : ℚ) : AnalysisProcess :=
  { id := id, type := type, status := .pending, startTime := now }

/-- `process.status = 'running'` at the top of each runner's `try` block. -/
def setRunning (p : AnalysisProcess) : AnalysisProcess :=
  { p with status := .running }

/-- The success epilogue of a runner: store the payload, mark `'completed'`,
set the end time.  These three assignments are synchronous (no `await`
between them), so they are one observable step. -/
def completeProcess (p : AnalysisProcess) (result : ProcessResult) (now : ℚ) :
    AnalysisProcess :=
  { p with result := some result, status := .completed, endTime := some now }

/-- The `catch` epilogue of a runner: mark `'failed'`, record the message,
set the end time — again one synchronous observable step. -/
def failProcess (p : AnalysisProcess) (message : String) (now : ℚ) :
    AnalysisProcess :=
  { p with status := .failed, error := some message, endTime := some now }

/-- Outcome of a runner's `try` block. -/
inductive ProcOutcome
  | success (result : ProcessResult)
  | failure (message : String)
deriving DecidableEq, Repr

/-- The sequence of observable states a runner writes into its process
record: `running` at the first suspension point, then exactly one terminal
state. -/
def runProcessTrace (p : AnalysisProcess) (outcome : ProcOutcome) (tEnd : ℚ) :
    List AnalysisProcess :=
  let running := setRunning p
  match outcome with
  | .success r => [running, completeProcess running r tEnd]
  | .failure e => [running, failProcess running e tEnd]

/-- `runFullVideoAnalysis`: run the frame-scan adapter; on success extract
gift codes per frame (at each frame's timestamp) and complete; the adapter's
rethrown error lands in this runner's `catch`, which fails the process. -/
def runFullVideoAnalysis (process : AnalysisProcess)
    (pipeline : Except String (List FrameAnalysisResult)) (videoId : String)
    (tEnd : ℚ) : List AnalysisProcess :=
  match analyzeVideo pipeline videoId with
  | .ok result =>
    let giftCodes := result.frameAnalysis.flatMap (fun frame =>
      detectGiftCodes frame.ocrResults videoId (some frame.timestamp))
    runProcessTrace process
      (.success { giftCodes := some giftCodes
                  frameAnalysis := some result.frameAnalysis }) tEnd
  | .error e => runProcessTrace process (.failure e) tEnd

/-- `runAudioAnalysis`: the audio adapter swallows its own errors, so the
runner always completes, storing `laughterPeaks` and `suspiciousSegments`. -/
def runAudioAnalysis (process : AnalysisProcess)
    (pipeline : Except String (List LaughterDetection × List AudioSegment))
    (tEnd : ℚ) : List AnalysisProcess :=
  let result := analyzeAudio pipeline
  runProcessTrace process
    (.success { laughterPeaks := some result.laughterPeaks
                suspiciousSegments := some result.suspiciousAudioSegments }) tEnd

/-- The laugh keyword list of `findLaughSegments`. -/
def laughKeywords : List String :=
  ["laugh", "laughing", "lol", "haha", "hehe", "giggle",
   "chuckle", "funny", "hilarious", "joke", "comedy"]

/-- `findLaughSegments`: keep segments whose lowercased text contains a laugh
keyword. -/
def findLaughSegments (segments : List TranscriptSegment) :
    List TranscriptSegment :=
  segments.filter (fun segment =>
    let text := jsToLowerCase segment.text
    laughKeywords.any (fun keyword => jsIncludes text keyword))

/-- `runTranscriptAnalysis`: the transcript adapter swallows its own errors,
so the runner always completes, storing the segments, the derived laugh
segments and the keywords. -/
def runTranscriptAnalysis (process : AnalysisProcess)
    (fetched : Except String (Option String))
    (parseTranscript : String → List TranscriptSegment)
    (findSuspiciousSegments : List TranscriptSegment → List TranscriptSegment)
    (extractKeywords : List TranscriptSegment → List String)
    (tEnd : ℚ) : List AnalysisProcess :=
  let result := analyzeTranscript fetched parseTranscript findSuspiciousSegments
    extractKeywords
  let laughSegments := findLaughSegments result.segments
  runProcessTrace process
    (.success { segments := some result.segments
                laughSegments := some laughSegments
                keywords := some result.keywords }) tEnd

/-- `runTargetedVideoAnalysis`: the segment-analysis call catches its own
errors (returning empty lists), so the runner always completes, storing the
codes, the time range and the anchoring laugh timestamp. -/
def runTargetedVideoAnalysis (process : AnalysisProcess)
    (pipeline : Except String (List GiftCodeDetection × List FrameAnalysisResult))
    (startTime endTime : ℚ) (laughTimestamp : LaughTimestamp) (tEnd : ℚ) :
    List AnalysisProcess :=
  let result := coordinatorAnalyzeVideoSegment pipeline
  runProcessTrace process
    (.success { giftCodes := some result.1
                frameAnalysis := some result.2
                timeRange := some (startTime, endTime)
                laughTimestamp := some laughTimestamp }) tEnd

/-! ## Anchor wait, targeted dispatch and aggregation -/

/-- The dispatch half of `startParallelAnalysis`: the three base process
records, created `pending` before the runners start. -/
def startParallelAnalysisProcesses (videoId : String) (now : ℚ) :
    List AnalysisProcess :=
  [ mkProcess ("full-video-" ++ videoId ++ "-" ++ toString now) .fullVideo now,
    mkProcess ("audio-" ++ videoId ++ "-" ++ toString now) .audio now,
    mkProcess ("transcript-" ++ videoId ++ "-" ++ toString now) .transcript now ]

/-- `waitForLaughTimestamps`, as a function of the audio and transcript
process records at the moment the poll loop exits (either because both are
`'completed'`, or because the 5-minute ceiling elapsed).  The extraction of
laugh timestamps happens **only inside** the both-completed branch; every
other exit leaves the accumulator empty. -/
def waitForLaughTimestamps (audioProcess transcriptProcess : AnalysisProcess) :
    List LaughTimestamp :=
  if audioProcess.status = .completed ∧ transcriptProcess.status = .completed then
    let fromAudio :=
      match audioProcess.result with
      | some r =>
        match r.laughterPeaks with
        | some peaks => peaks.map (fun laugh =>
            { timestamp := laugh.startTime
              confidence := laugh.confidence
              source := "audio"
              context := some (laugh.type ++ " laugh (intensity: " ++
                toString laugh.intensity ++ ")") })
        | none => []
      | none => []
    let fromTranscript :=
      match transcriptProcess.result with
      | some r =>
        match r.laughSegments with
        | some segs => segs.map (fun segment =>
            { timestamp := segment.startTime
              confidence := segment.confidence
              source := "transcript"
              context := some (String.mk (segment.text.data.take 100)) })
        | none => []
      | none => []
    fromAudio ++ fromTranscript
  else []

/-- One targeted dispatch: the fresh process record plus the window bounds
and anchor event handed to `runTargetedVideoAnalysis`. -/
structure TargetedDispatch where
  process : AnalysisProcess
  startTime : ℚ
  endTime : ℚ
  laughTimestamp : LaughTimestamp
deriving DecidableEq, Repr

/-- `startTargetedAnalysis`: one targeted-video process per laugh timestamp,
with `startTime = timestamp + 5` and `endTime = timestamp + 60` ("Analyze
5-60 seconds after the laugh"). -/
def startTargetedAnalysis (videoId : String)
    (laughTimestamps : List LaughTimestamp) (now : ℚ) : List TargetedDispatch :=
  laughTimestamps.map (fun laughTimestamp =>
    let startTime := laughTimestamp.timestamp + 5
    let endTime := laughTimestamp.timestamp + 60
    { process := mkProcess
        ("targeted-" ++ videoId ++ "-" ++ toString laughTimestamp.timestamp ++
          "-" ++ toString now) .targetedVideo now
      startTime := startTime
      endTime := endTime
      laughTimestamp := laughTimestamp })

/-- `'investigate' | 'monitor' | 'ignore'`. -/
inductive RecommendedAction
  | investigate
  | monitor
  | ignore
deriving DecidableEq, Repr

/-- `determineRecommendedAction`: `'ignore'` on an empty list, else
`'investigate'` when some detection has confidence `> 0.8`, else
`'monitor'`. -/
def determineRecommendedAction (giftCodes : List GiftCodeDetection) :
    RecommendedAction :=
  if giftCodes.length = 0 then .ignore
  else
    let highConfidenceCodes := giftCodes.filter (fun code => code.confidence > 8/10)
    if highConfidenceCodes.length > 0 then .investigate
    else .monitor

/-- `calculateOverallConfidence`: `0` on an empty list, else the arithmetic
mean of the confidences put through `Math.round(avg * 100) / 100`. -/
def calculateOverallConfidence (giftCodes : List GiftCodeDetection) : ℚ :=
  if giftCodes.length = 0 then 0
  else
    let avgConfidence :=
      (giftCodes.map (fun code => code.confidence)).sum / giftCodes.length
    (jsRound (avgConfidence * 100) : ℚ) / 100

/-- `generateKeyFindings`: human-readable counts, with a fixed fallback
string when nothing was found. -/
def generateKeyFindings (giftCodes : List GiftCodeDetection)
    (laughterEvents : List LaughterDetection) : List String :=
  let findings : List String :=
    (if giftCodes.length > 0 then
      ["Found " ++ toString giftCodes.length ++ " potential Amazon gift code(s)"] ++
      (let highConfidenceCodes := giftCodes.filter (fun code => code.confidence > 8/10)
       if highConfidenceCodes.length > 0 then
         [toString highConfidenceCodes.length ++
           " high-confidence gift code detection(s)"]
       else [])
    else []) ++
    (if laughterEvents.length > 0 then
      ["Detected " ++ toString laughterEvents.length ++ " laughter event(s)"]
    else [])
  if findings.length = 0 then ["No significant findings detected"] else findings

/-- The `summary` field of `VideoAnalysisResult`. -/
structure AnalysisSummary where
  recommendedAction : RecommendedAction
  confidence : ℚ
  keyFindings : List String
deriving DecidableEq, Repr

/-- `VideoAnalysisResult` (the fields `aggregateResults` populates). -/
structure VideoAnalysisResult where
  videoId : String
  processedAt : String
  processingDuration : ℚ
  giftCodes : List GiftCodeDetection
  laughterEvents : List LaughterDetection
  frameAnalysis : List FrameAnalysisResult
  summary : AnalysisSummary
deriving DecidableEq, Repr

/-- The collection loop of `aggregateResults`: gift codes of every completed
process that has a result payload with that field. -/
def collectGiftCodes (processes : List AnalysisProcess) : List GiftCodeDetection :=
  processes.flatMap (fun process =>
    if process.status = .completed then
      match process.result with
      | some r => r.giftCodes.getD []
      | none => []
    else [])

/-- Laughter peaks of every completed process (same loop). -/
def collectLaughterEvents (processes : List AnalysisProcess) :
    List LaughterDetection :=
  processes.flatMap (fun process =>
    if process.status = .completed then
      match process.result with
      | some r => r.laughterPeaks.getD []
      | none => []
    else [])

/-- Frame analyses of every completed process (same loop). -/
def collectFrameAnalysis (processes : List AnalysisProcess) :
    List FrameAnalysisResult :=
  processes.flatMap (fun process =>
    if process.status = .completed then
      match process.result with
      | some r => r.frameAnalysis.getD []
      | none => []
    else [])

/-- The dedup step of `aggregateResults`:
`array.filter((code, index, array) => array.findIndex(c => c.code === code.code) === index)`
— keep an entry exactly when its index is the first index carrying its
`code` string. -/
def aggregatorDedup (allGiftCodes : List GiftCodeDetection) :
    List GiftCodeDetection :=
  ((allGiftCodes.enum.filter (fun p =>
      allGiftCodes.findIdx (fun c => c.code == p.2.code) = p.1)).map
    (fun p => p.2))

/-- `aggregateResults(processes, videoId, startTime)`: collect from completed
processes, prepend `detectGiftCodes([], videoId)` (always `[]`), dedup by the
`code` field, then build the verdict.  `processedAt` (wall-clock ISO string)
and `nowMs` (`Date.now()`) are clock reads passed in explicitly. -/
def aggregateResults (processes : List AnalysisProcess) (videoId : String)
    (startTime nowMs : ℚ) (processedAt : String) : VideoAnalysisResult :=
  let allGiftCodes := collectGiftCodes processes
  let allLaughterEvents := collectLaughterEvents processes
  let allFrameAnalysis := collectFrameAnalysis processes
  let uniqueGiftCodes :=
    aggregatorDedup (detectGiftCodes [] videoId none ++ allGiftCodes)
  let recommendedAction := determineRecommendedAction uniqueGiftCodes
  { videoId := videoId
    processedAt := processedAt
    processingDuration := nowMs - startTime
    giftCodes := uniqueGiftCodes
    laughterEvents := allLaughterEvents
    frameAnalysis := allFrameAnalysis
    summary :=
      { recommendedAction := recommendedAction
        confidence := calculateOverallConfidence uniqueGiftCodes
        keyFindings := generateKeyFindings uniqueGiftCodes allLaughterEvents } }

/-! ## Invariant and specification-side definitions

The `spec…` definitions below follow the specification's wording (for
refinement comparison against the code's definitions above); everything else
is translated from the source. -/

/-- A status is terminal when it is `'completed'` or `'failed'`. -/
def isTerminalStatus (s : ProcessStatus) : Bool :=
  s == .completed || s == .failed

/-- The §3 data-model invariant: the end time is set iff the state is
completed or failed. -/
def endTimeInvariant (p : AnalysisProcess) : Prop :=
  p.endTime.isSome ↔ (p.status = .completed ∨ p.status = .failed)

/-- Number of occurrences of `ch` in `cs`. -/
def countOccurrences (cs : List Char) (ch : Char) : ℕ :=
  (cs.filter (fun c => c == ch)).length

/-- The confidence formula as the spec sentence for C6 reads: a fixed penalty
per **occurrence** of any ambiguous character (three `'1'`s are penalized
three times), with the same dashed-format bonus, typical-pattern bonus and
clamp as the source. -/
def specConfidencePerOccurrence (code : String) (ocrConfidence : ℚ) : ℚ :=
  let confidence := ocrConfidence
  let confidence := if dashedFormatExact code then confidence + 1/10 else confidence
  let cleanCode := stripSeparators code
  let occurrenceCount := (excludedChars.map (countOccurrences cleanCode.data)).sum
  let confidence := confidence - (occurrenceCount : ℚ) * (1/20)
  let confidence :=
    if hasTypicalAmazonPattern cleanCode then confidence + 1/20 else confidence
  max (1/10) (min 1 confidence)

/-- The corrected confidence formula: the penalty is applied once per
**distinct** member of the ambiguous set that occurs in the
separator-stripped code, regardless of multiplicity. -/
def specConfidencePerDistinct (code : String) (ocrConfidence : ℚ) : ℚ :=
  let cleanCode := stripSeparators code
  let distinctAmbiguous :=
    (excludedChars.filter (fun ch => cleanCode.data.contains ch)).length
  max (1/10) (min 1
    (ocrConfidence + (if dashedFormatExact code then 1/10 else 0)
      - (distinctAmbiguous : ℚ) * (1/20)
      + (if hasTypicalAmazonPattern cleanCode then 1/20 else 0)))

/-- Arithmetic mean, as the spec words it (`0/0 = 0` on the empty list by
rational division). -/
def arithmeticMean (xs : List ℚ) : ℚ := xs.sum / xs.length

/-- Which positions a first-occurrence dedup keeps, computed from the key
sequence alone (`seen` = keys already kept). -/
def dedupKeepFlags (seen : List String) : List String → List Bool
  | [] => []
  | k :: rest =>
    if k ∈ seen then false :: dedupKeepFlags seen rest
    else true :: dedupKeepFlags (k :: seen) rest

/-- Select the entries of a list marked `true` by a parallel flag list. -/
def filterByFlags : List Bool → List GiftCodeDetection → List GiftCodeDetection
  | true :: bs, x :: xs => x :: filterByFlags bs xs
  | false :: bs, _ :: xs => filterByFlags bs xs
  | _, [] => []
  | [], _ :: _ => []

/-! ## Concrete inputs used by counterexamples and witnesses -/

/-- A transcript caption segment flagged by `findLaughSegments` (contains
"haha"), anchored at `t = 42.0s`. -/
def exLaughSegment : TranscriptSegment :=
  { text := "haha that was funny"
    startTime := 42
    endTime := 45
    confidence := 9/10
    keywords := [] }

/-- The audio process still `running` when the anchor wait ends (the audio
detector timed out before completing). -/
def exAudioRunning : AnalysisProcess :=
  { id := "audio-vid-0", type := .audio, status := .running, startTime := 0 }

/-- The transcript process completed with exactly one laugh segment at
`t = 42.0s`. -/
def exTranscriptDone : AnalysisProcess :=
  { id := "transcript-vid-0"
    type := .transcript
    status := .completed
    startTime := 0
    endTime := some 10
    result := some { segments := some [exLaughSegment]
                     laughSegments := some [exLaughSegment]
                     keywords := some [] } }

/-- A time-anchored event at `t = 42.0s`. -/
def exEvent42 : LaughTimestamp :=
  { timestamp := 42, confidence := 9/10, source := "transcript"
    context := some "haha that was funny" }

/-- A completed-audio process, for witnesses needing both anchors present. -/
def exAudioDone : AnalysisProcess :=
  { id := "audio-vid-1"
    type := .audio
    status := .completed
    startTime := 0
    endTime := some 8
    result := some { laughterPeaks := some [], suspiciousSegments := some [] } }

/-- A default bounding box for example detections. -/
def exBox : BoundingBox := { x := 0, y := 0, width := 10, height := 10 }

/-- Example detection with confidence `0.1`. -/
def exDetA : GiftCodeDetection :=
  { code := "AAAA-222222-AAAA", confidence := 1/10, boundingBox := exBox
    timestamp := 0, source := "video-frame", rawText := "AAAA222222AAAA"
    detectionMethod := "hyphen-separated" }

/-- Example detection with confidence `0.1`, distinct code. -/
def exDetB : GiftCodeDetection :=
  { code := "BBBB-333333-BBBB", confidence := 1/10, boundingBox := exBox
    timestamp := 0, source := "video-frame", rawText := "BBBB333333BBBB"
    detectionMethod := "hyphen-separated" }

/-- Example detection with confidence `0.2`, distinct code. -/
def exDetC : GiftCodeDetection :=
  { code := "CCCC-444444-CCCC", confidence := 1/5, boundingBox := exBox
    timestamp := 0, source := "video-frame", rawText := "CCCC444444CCCC"
    detectionMethod := "hyphen-separated" }

/-- Three deduplicated detections whose mean confidence `2/15` is not
representable in hundredths. -/
def exDetList : List GiftCodeDetection := [exDetA, exDetB, exDetC]

/-- OCR result whose text carries a gift code written in lowercase. -/
def exOcrLower : OCRResult :=
  { text := "claim your gift: aaaa-112233-bbbb now", confidence := 3/4
    boundingBox := exBox, monetaryValues := [] }

/-- The same OCR result with the text written in uppercase. -/
def exOcrUpper : OCRResult :=
  { text := "CLAIM YOUR GIFT: AAAA-112233-BBBB NOW", confidence := 3/4
    boundingBox := exBox, monetaryValues := [] }

/-- The single dispatch produced for `exEvent42` (window `[47, 102]`). -/
def exDispatch42 : TargetedDispatch :=
  { process := mkProcess ("targeted-vid-42-0") .targetedVideo 0
    startTime := 47
    endTime := 102
    laughTimestamp := exEvent42 }

/-!
# Theorems
-/

/-- `determineRecommendedAction` in predicate form: `investigate` when some
detection's confidence exceeds `0.8`, else `monitor` on a non-empty list,
else `ignore`. -/
theorem determineRecommendedAction_eq (l : List GiftCodeDetection) :
    determineRecommendedAction l =
      (if ∃ c ∈ l, c.confidence > 8/10 then RecommendedAction.investigate
       else if l ≠ [] then RecommendedAction.monitor
       else RecommendedAction.ignore) := by
  unfold determineRecommendedAction
  by_cases h0 : l = []
  · subst h0; simp
  · have hlen : ¬ l.length = 0 := by simpa [List.length_eq_zero] using h0
    rw [if_neg hlen]
    by_cases hex : ∃ c ∈ l, c.confidence > 8/10
    · obtain ⟨c, hc, hcc⟩ := hex
      have hmem : c ∈ l.filter (fun code => decide (code.confidence > 8/10)) :=
        List.mem_filter.mpr ⟨hc, decide_eq_true hcc⟩
      have hpos : 0 < (l.filter (fun code => decide (code.confidence > 8/10))).length :=
        List.length_pos.mpr (List.ne_nil_of_mem hmem)
      simp only [hpos, if_pos, if_true]
      rw [if_pos ⟨c, hc, hcc⟩]
    · have hnil : l.filter (fun code => decide (code.confidence > 8/10)) = [] := by
        rw [List.filter_eq_nil_iff]
        intro a ha
        simp only [decide_eq_true_eq]
        exact fun hcc => hex ⟨a, ha, hcc⟩
      rw [if_neg hex, if_pos h0]
      simp [hnil]

/-- **C3** For every snapshot of `AnalysisProcess` records handed to the
aggregator, the verdict's recommended action is `investigate` if some
deduplicated detection has confidence strictly greater than `0.8`, else
`monitor` if the deduplicated detection set is non-empty, else `ignore`. -/
theorem verdict_recommendedAction (processes : List AnalysisProcess)
    (videoId : String) (startTime nowMs : ℚ) (processedAt : String) :
    (aggregateResults processes videoId startTime nowMs processedAt).summary.recommendedAction =
      (if ∃ c ∈ (aggregateResults processes videoId startTime nowMs processedAt).giftCodes,
            c.confidence > 8/10 then RecommendedAction.investigate
       else if (aggregateResults processes videoId startTime nowMs processedAt).giftCodes ≠ [] then
         RecommendedAction.monitor
       else RecommendedAction.ignore) :=
  determineRecommendedAction_eq
    ((aggregateResults processes videoId startTime nowMs processedAt).giftCodes)

/-- **C7** For every candidate code and every source OCR confidence, the
validator's final confidence lies in the closed interval `[0.1, 1.0]`. -/
theorem calculateCodeConfidence_clamped (code : String) (ocrConfidence : ℚ) :
    1/10 ≤ calculateCodeConfidence code ocrConfidence ∧
    calculateCodeConfidence code ocrConfidence ≤ 1 := by
  unfold calculateCodeConfidence
  refine ⟨le_max_left _ _, max_le (by norm_num) (min_le_left _ _)⟩

/-- C2 as stated is false: the targeted window for an event at `t = 42.0s`
is `[47, 102]` (`t+5` through `t+60`), not `[47, 107]`. -/
theorem targeted_window_counterexample :
    ((startTargetedAnalysis ("vid") [exEvent42] 0).map
        (fun d => (d.startTime, d.endTime))) = [((47 : ℚ), (102 : ℚ))] ∧
    ((102 : ℚ) ≠ (107 : ℚ)) := by
  constructor
  · simp only [startTargetedAnalysis, exEvent42, List.map_cons, List.map_nil]
    norm_num
  · norm_num

/-- **C2 (amended)** Every targeted-scan dispatch is windowed
`[t + 5, t + 60]` around its anchor event's timestamp `t` (the source
analyzes 5 through 60 seconds after the laugh, a 55-second window), one
dispatch per event in order. -/
theorem startTargetedAnalysis_window (videoId : String)
    (laughTimestamps : List LaughTimestamp) (now : ℚ) :
    ((startTargetedAnalysis videoId laughTimestamps now).map
        (fun d => d.laughTimestamp) = laughTimestamps) ∧
    ∀ d ∈ startTargetedAnalysis videoId laughTimestamps now,
      d.startTime = d.laughTimestamp.timestamp + 5 ∧
      d.endTime = d.laughTimestamp.timestamp + 60 ∧
      d.process.type = ProcessType.targetedVideo ∧
      d.process.status = ProcessStatus.pending := by
  constructor
  · simp [startTargetedAnalysis, Function.comp_def]
  · intro d hd
    simp only [startTargetedAnalysis, List.mem_map] at hd
    obtain ⟨t, _, rfl⟩ := hd
    exact ⟨rfl, rfl, rfl, rfl⟩

/-- Witness for the amended C2 at the concrete event `t = 42.0s`. -/
theorem startTargetedAnalysis_window_witness :
    exDispatch42.startTime = exDispatch42.laughTimestamp.timestamp + 5 ∧
    exDispatch42.endTime = exDispatch42.laughTimestamp.timestamp + 60 ∧
    exDispatch42.process.type = ProcessType.targetedVideo ∧
    exDispatch42.process.status = ProcessStatus.pending :=
  (startTargetedAnalysis_window ("vid") [exEvent42] 0).2 exDispatch42 (by
    simp only [startTargetedAnalysis, exEvent42, exDispatch42, List.map_cons,
      List.map_nil, List.mem_singleton]
    simp only [mkProcess, TargetedDispatch.mk.injEq, AnalysisProcess.mk.injEq]
    norm_num
    decide)

/-- C1 as stated is false: with the audio process still running and the
transcript process completed with one laugh segment at `t = 42.0s`, the
anchor wait returns no events (extraction happens only when **both**
processes are completed) and zero targeted processes are dispatched, not
one. -/
theorem anchor_wait_counterexample :
    exAudioRunning.status ≠ ProcessStatus.completed ∧
    exTranscriptDone.status = ProcessStatus.completed ∧
    exTranscriptDone.result = some { segments := some [exLaughSegment]
                                     laughSegments := some [exLaughSegment]
                                     keywords := some [] } ∧
    exLaughSegment.startTime = 42 ∧
    waitForLaughTimestamps exAudioRunning exTranscriptDone = [] ∧
    (startTargetedAnalysis ("vid")
        (waitForLaughTimestamps exAudioRunning exTranscriptDone) 0).length ≠ 1 := by
  refine ⟨by decide, by decide, rfl, rfl, ?_, ?_⟩
  · rw [waitForLaughTimestamps, if_neg (by decide)]
  · rw [waitForLaughTimestamps, if_neg (by decide)]
    decide

/-- **C1 (amended)** If the anchor-wait phase ends with the audio process and
the transcript process not both in the completed state (bounded-wait timeout,
or only one of them completed), the coordinator collects **no**
time-anchored events and dispatches **no** targeted-scan processes; events
are extracted only when both processes completed. -/
theorem anchor_wait_requires_both (audioProcess transcriptProcess : AnalysisProcess)
    (h : audioProcess.status ≠ ProcessStatus.completed ∨
         transcriptProcess.status ≠ ProcessStatus.completed) :
    waitForLaughTimestamps audioProcess transcriptProcess = [] ∧
    ∀ videoId now,
      startTargetedAnalysis videoId
        (waitForLaughTimestamps audioProcess transcriptProcess) now = [] := by
  have hn : ¬(audioProcess.status = ProcessStatus.completed ∧
      transcriptProcess.status = ProcessStatus.completed) := by tauto
  rw [waitForLaughTimestamps, if_neg hn]
  exact ⟨rfl, fun _ _ => rfl⟩

/-- Witness for the amended C1: the audio process timed out (still running),
the transcript process completed — no events, no targeted dispatches. -/
theorem anchor_wait_requires_both_witness :
    waitForLaughTimestamps exAudioRunning exTranscriptDone = [] ∧
    startTargetedAnalysis ("vid")
      (waitForLaughTimestamps exAudioRunning exTranscriptDone) 0 = [] :=
  ⟨(anchor_wait_requires_both exAudioRunning exTranscriptDone (Or.inl (by decide))).1,
   (anchor_wait_requires_both exAudioRunning exTranscriptDone (Or.inl (by decide))).2
     ("vid") 0⟩

/-- C6 as stated is false: `"A1B1C1DFGHJKLM"` contains three occurrences of
`'1'` but is penalized once (the source counts each ambiguous **character**
that occurs, via `excludedChars.filter(char => cleanCode.includes(char))`,
not each occurrence), so the code yields `0.5` where the per-occurrence
formula of the claim yields `0.4`. -/
theorem confidence_per_occurrence_counterexample :
    calculateCodeConfidence ("A1B1C1DFGHJKLM") (1/2) = 1/2 ∧
    specConfidencePerOccurrence ("A1B1C1DFGHJKLM") (1/2) = 2/5 ∧
    ((1/2 : ℚ) ≠ 2/5) := by
  have hdash : dashedFormatExact ("A1B1C1DFGHJKLM") = false := by decide
  have htyp :
      hasTypicalAmazonPattern (stripSeparators ("A1B1C1DFGHJKLM")) = true := by decide
  have hcnt :
      (excludedChars.filter
        (fun ch => (stripSeparators ("A1B1C1DFGHJKLM")).data.contains ch)).length = 1 := by
    decide
  have hocc :
      (excludedChars.map
        (countOccurrences (stripSeparators ("A1B1C1DFGHJKLM")).data)).sum = 3 := by
    decide
  refine ⟨?_, ?_, by norm_num⟩
  · simp only [calculateCodeConfidence, hdash, htyp, hcnt]
    norm_num
  · simp only [specConfidencePerOccurrence, hdash, htyp, hocc]
    norm_num

/-- **C6 (amended)** For every accepted candidate and OCR confidence, the
validator's confidence starts from the OCR confidence, adds `0.1` if the
match is in canonical dashed format, subtracts `0.05` once per **distinct**
ambiguous character (`'0'`, `'O'`, `'I'`, `'1'`) that occurs in the code
(regardless of multiplicity), adds `0.05` when the code has no implausible
pattern, and clamps to `[0.1, 1.0]`. -/
theorem calculateCodeConfidence_per_distinct (code : String) (ocrConfidence : ℚ) :
    calculateCodeConfidence code ocrConfidence =
      specConfidencePerDistinct code ocrConfidence := by
  simp only [calculateCodeConfidence, specConfidencePerDistinct]
  cases h1 : dashedFormatExact code <;>
    cases h2 : hasTypicalAmazonPattern (stripSeparators code) <;>
      simp only [h1, h2, Bool.false_eq_true, if_false, if_true] <;>
        (congr 1; congr 1; ring)

/-- C5 as stated is false: three deduplicated detections with confidences
`0.1`, `0.1`, `0.2` have arithmetic mean `2/15 ≈ 0.1333`, but the aggregator
reports `0.13` (`Math.round(avg * 100) / 100`). -/
theorem overall_confidence_counterexample :
    calculateOverallConfidence exDetList = 13/100 ∧
    arithmeticMean (exDetList.map (fun c => c.confidence)) = 2/15 ∧
    calculateOverallConfidence exDetList ≠
      arithmeticMean (exDetList.map (fun c => c.confidence)) := by
  have hA : calculateOverallConfidence exDetList = 13/100 := by
    unfold calculateOverallConfidence
    rw [if_neg (by decide)]
    norm_num [exDetList, exDetA, exDetB, exDetC, jsRound]
  have hB : arithmeticMean (exDetList.map (fun c => c.confidence)) = 2/15 := by
    norm_num [arithmeticMean, exDetList, exDetA, exDetB, exDetC]
  refine ⟨hA, hB, ?_⟩
  rw [hA, hB]
  norm_num

/-- **C5 (amended)** The verdict's overall confidence is the arithmetic mean
of the deduplicated detections' confidences **rounded to the nearest
hundredth** (`Math.round(avg * 100) / 100`), and `0` when the list is
empty; the verdict's summary confidence is exactly this value of the
verdict's deduplicated detection list. -/
theorem overallConfidence_rounded_mean (giftCodes : List GiftCodeDetection)
    (processes : List AnalysisProcess) (videoId : String) (startTime nowMs : ℚ)
    (processedAt : String) :
    (calculateOverallConfidence giftCodes =
      if giftCodes = [] then 0
      else (jsRound (arithmeticMean (giftCodes.map (fun c => c.confidence)) * 100) : ℚ) / 100) ∧
    (aggregateResults processes videoId startTime nowMs processedAt).summary.confidence =
      calculateOverallConfidence
        ((aggregateResults processes videoId startTime nowMs processedAt).giftCodes) := by
  refine ⟨?_, rfl⟩
  unfold calculateOverallConfidence arithmeticMean
  by_cases h : giftCodes = []
  · subst h; simp
  · have hlen : ¬ giftCodes.length = 0 := by simpa [List.length_eq_zero] using h
    rw [if_neg hlen, if_neg h]
    simp [List.length_map]

/-- C8 as stated is false: on total provider failure the frame-scan adapter
(`VideoAnalyzer.analyzeVideo`) rethrows the error instead of returning an
empty result set. -/
theorem adapter_failure_counterexample :
    analyzeVideo (Except.error ("provider unreachable")) ("vid") =
      Except.error ("provider unreachable") ∧
    ((Except.error ("provider unreachable") : Except String VideoAnalysisOutput) ≠
      Except.ok { giftCodes := [], laughterEvents := [], behaviorEvents := []
                  frameAnalysis := [] }) := by
  exact ⟨rfl, fun h => Except.noConfusion h⟩

/-- **C8 (amended)** On total adapter failure the audio-event and
transcript-event adapters return empty result sets to the caller, but the
frame-scan adapter rethrows the provider error (its failure is absorbed one
level up, by the coordinator's `runFullVideoAnalysis`, which marks the
process failed). -/
theorem adapter_total_failure (e : String) (videoId : String)
    (parseTranscript : String → List TranscriptSegment)
    (findSuspiciousSegments : List TranscriptSegment → List TranscriptSegment)
    (extractKeywords : List TranscriptSegment → List String) :
    analyzeAudio (Except.error e) =
      { laughterPeaks := [], suspiciousAudioSegments := [] } ∧
    analyzeTranscript (Except.error e) parseTranscript findSuspiciousSegments
        extractKeywords =
      { segments := [], keywords := [], suspiciousSegments := [] } ∧
    analyzeVideo (Except.error e) videoId = Except.error e :=
  ⟨rfl, rfl, rfl⟩

/-- Every observable state a runner writes satisfies the end-time invariant,
provided the record it starts from has no end time yet. -/
theorem runProcessTrace_endTimeInvariant (p : AnalysisProcess)
    (outcome : ProcOutcome) (tEnd : ℚ) (hp : p.endTime = none) :
    ∀ q ∈ runProcessTrace p outcome tEnd, endTimeInvariant q := by
  intro q hq
  cases outcome <;>
    simp only [runProcessTrace, List.mem_cons, List.not_mem_nil, or_false] at hq <;>
    rcases hq with rfl | rfl <;>
    simp [endTimeInvariant, setRunning, completeProcess, failProcess, hp]

/-- Within a runner's observable state sequence, a terminal state is never
left: any state at or after a terminal one equals it. -/
theorem runProcessTrace_terminal_stable (p : AnalysisProcess)
    (outcome : ProcOutcome) (tEnd : ℚ) (i j : ℕ)
    (hi : i < (runProcessTrace p outcome tEnd).length)
    (hj : j < (runProcessTrace p outcome tEnd).length) (hij : i ≤ j)
    (ht : isTerminalStatus ((runProcessTrace p outcome tEnd).get ⟨i, hi⟩).status = true) :
    (runProcessTrace p outcome tEnd).get ⟨j, hj⟩ =
      (runProcessTrace p outcome tEnd).get ⟨i, hi⟩ := by
  cases outcome <;>
    (simp only [runProcessTrace, List.length_cons, List.length_nil] at hi hj
     interval_cases i <;> interval_cases j <;>
       first
         | rfl
         | omega
         | (exfalso
            simp [runProcessTrace, setRunning, isTerminalStatus] at ht))

/-- **C9** The end-time/terminal-state invariant: a freshly dispatched
process is pending with no end time; every observable state written by any
of the four runners (`runFullVideoAnalysis`, `runAudioAnalysis`,
`runTranscriptAnalysis`, `runTargetedVideoAnalysis`, all instances of
`runProcessTrace`) has its end time set iff its status is completed or
failed; and within a run a process never transitions out of a terminal
state. -/
theorem process_lifecycle_invariant :
    (∀ id type now, (mkProcess id type now).status = ProcessStatus.pending ∧
      (mkProcess id type now).endTime = none ∧
      endTimeInvariant (mkProcess id type now)) ∧
    (∀ p outcome tEnd, p.endTime = none →
      ∀ q ∈ runProcessTrace p outcome tEnd, endTimeInvariant q) ∧
    (∀ p outcome tEnd (i j : ℕ)
      (hi : i < (runProcessTrace p outcome tEnd).length)
      (hj : j < (runProcessTrace p outcome tEnd).length), i ≤ j →
      isTerminalStatus ((runProcessTrace p outcome tEnd).get ⟨i, hi⟩).status = true →
      (runProcessTrace p outcome tEnd).get ⟨j, hj⟩ =
        (runProcessTrace p outcome tEnd).get ⟨i, hi⟩) ∧
    (∀ process pipeline videoId tEnd, process.endTime = none →
      ∀ q ∈ runFullVideoAnalysis process pipeline videoId tEnd, endTimeInvariant q) ∧
    (∀ process pipeline tEnd, process.endTime = none →
      ∀ q ∈ runAudioAnalysis process pipeline tEnd, endTimeInvariant q) ∧
    (∀ process fetched parseTranscript findSuspiciousSegments extractKeywords tEnd,
      process.endTime = none →
      ∀ q ∈ runTranscriptAnalysis process fetched parseTranscript
          findSuspiciousSegments extractKeywords tEnd, endTimeInvariant q) ∧
    (∀ process pipeline startTime endTime laughTimestamp tEnd,
      process.endTime = none →
      ∀ q ∈ runTargetedVideoAnalysis process pipeline startTime endTime
          laughTimestamp tEnd, endTimeInvariant q) := by
  refine ⟨?_, runProcessTrace_endTimeInvariant,
    runProcessTrace_terminal_stable, ?_, ?_, ?_, ?_⟩
  · intro id type now
    simp [mkProcess, endTimeInvariant]
  · intro process pipeline videoId tEnd hp
    cases pipeline with
    | ok frameAnalysis =>
      simp only [runFullVideoAnalysis, analyzeVideo]
      exact runProcessTrace_endTimeInvariant _ _ _ hp
    | error e =>
      simp only [runFullVideoAnalysis, analyzeVideo]
      exact runProcessTrace_endTimeInvariant _ _ _ hp
  · intro process pipeline tEnd hp
    simp only [runAudioAnalysis]
    exact runProcessTrace_endTimeInvariant _ _ _ hp
  · intro process fetched parseTranscript findSuspiciousSegments extractKeywords tEnd hp
    simp only [runTranscriptAnalysis]
    exact runProcessTrace_endTimeInvariant _ _ _ hp
  · intro process pipeline startTime endTime laughTimestamp tEnd hp
    simp only [runTargetedVideoAnalysis]
    exact runProcessTrace_endTimeInvariant _ _ _ hp

/-- Witness for C9: the failed terminal state written by
`runFullVideoAnalysis` for a fresh process whose provider pipeline threw
satisfies the end-time invariant. -/
theorem process_lifecycle_invariant_witness :
    endTimeInvariant
      (failProcess (setRunning (mkProcess ("full-video-v-0") ProcessType.fullVideo 0))
        ("down") 7) :=
  process_lifecycle_invariant.2.2.2.1
    (mkProcess ("full-video-v-0") ProcessType.fullVideo 0)
    (Except.error ("down")) ("v") 7 rfl _
    (by simp [runFullVideoAnalysis, analyzeVideo, runProcessTrace])

/-- Nothing kept by `removeDuplicateCodesAux` has a normalized code already
in `seen`. -/
theorem removeDuplicateCodesAux_not_seen (seen : List String)
    (l : List GiftCodeDetection) :
    ∀ c ∈ removeDuplicateCodesAux seen l, normalizeGiftCode c.code ∉ seen := by
  induction l generalizing seen with
  | nil => intro c hc; simp [removeDuplicateCodesAux] at hc
  | cons a t ih =>
    intro c hc
    simp only [removeDuplicateCodesAux] at hc
    by_cases h : normalizeGiftCode a.code ∈ seen
    · rw [if_pos h] at hc
      exact ih seen c hc
    · rw [if_neg h] at hc
      rcases List.mem_cons.mp hc with rfl | hc
      · exact h
      · have := ih (normalizeGiftCode a.code :: seen) c hc
        exact fun hmem => this (List.mem_cons_of_mem _ hmem)

/-- No two entries kept by `removeDuplicateCodesAux` share a normalized
code. -/
theorem removeDuplicateCodesAux_pairwise (seen : List String)
    (l : List GiftCodeDetection) :
    (removeDuplicateCodesAux seen l).Pairwise
      (fun a b => normalizeGiftCode a.code ≠ normalizeGiftCode b.code) := by
  induction l generalizing seen with
  | nil => simp [removeDuplicateCodesAux]
  | cons a t ih =>
    simp only [removeDuplicateCodesAux]
    by_cases h : normalizeGiftCode a.code ∈ seen
    · rw [if_pos h]; exact ih seen
    · rw [if_neg h]
      refine List.Pairwise.cons ?_ (ih _)
      intro b hb
      have hbs := removeDuplicateCodesAux_not_seen _ _ b hb
      exact fun he => hbs (List.mem_cons.mpr (Or.inl he.symm))

/-- The kept element for any key is the first input element with that key
(when the key is not blocked by `seen`). -/
theorem removeDuplicateCodesAux_findFirst (seen : List String)
    (l : List GiftCodeDetection) (k : String) :
    (removeDuplicateCodesAux seen l).find? (fun c => normalizeGiftCode c.code == k) =
      if k ∈ seen then none else l.find? (fun c => normalizeGiftCode c.code == k) := by
  induction l generalizing seen with
  | nil =>
    simp only [removeDuplicateCodesAux, List.find?_nil]
    by_cases hk : k ∈ seen <;> simp [hk]
  | cons a t ih =>
    simp only [removeDuplicateCodesAux]
    by_cases h : normalizeGiftCode a.code ∈ seen
    · rw [if_pos h, ih]
      by_cases hk : k ∈ seen
      · simp [hk]
      · have hpa : (normalizeGiftCode a.code == k) = false := by
          simp only [beq_eq_false_iff_ne, ne_eq]
          exact fun he => hk (he ▸ h)
        rw [if_neg hk, if_neg hk]
        simp [List.find?_cons, hpa]
    · rw [if_neg h]
      by_cases hak : (normalizeGiftCode a.code == k) = true
      · have hk : k ∉ seen := by
          simp only [beq_iff_eq] at hak
          exact hak ▸ h
        rw [if_neg hk]
        simp [List.find?_cons, hak]
      · have hak' : (normalizeGiftCode a.code == k) = false := by simpa using hak
        simp only [List.find?_cons, hak', cond_false]
        rw [ih]
        by_cases hk : k ∈ seen
        · rw [if_pos hk, if_pos (List.mem_cons_of_mem _ hk)]
        · have hknot : k ∉ normalizeGiftCode a.code :: seen := by
            simp only [List.mem_cons, not_or]
            refine ⟨?_, hk⟩
            simp only [beq_iff_eq] at hak
            exact fun he => hak he.symm
          rw [if_neg hknot, if_neg hk]

/-- `removeDuplicateCodesAux` selects positions by the normalized-code
sequence alone: its output is the flag-selection of its input. -/
theorem removeDuplicateCodesAux_eq_filterByFlags (seen : List String)
    (l : List GiftCodeDetection) :
    removeDuplicateCodesAux seen l =
      filterByFlags
        (dedupKeepFlags seen (l.map (fun c => normalizeGiftCode c.code))) l := by
  induction l generalizing seen with
  | nil => rfl
  | cons a t ih =>
    simp only [removeDuplicateCodesAux, List.map_cons, dedupKeepFlags]
    by_cases h : normalizeGiftCode a.code ∈ seen
    · rw [if_pos h, if_pos h]
      simp only [filterByFlags]
      exact ih seen
    · rw [if_neg h, if_neg h]
      simp only [filterByFlags]
      rw [ih]

/-- On a list already deduplicated (pairwise-distinct normalized codes, none
blocked by `seen`), `removeDuplicateCodesAux` is the identity. -/
theorem removeDuplicateCodesAux_eq_self (seen : List String)
    (l : List GiftCodeDetection)
    (hl : l.Pairwise (fun a b => normalizeGiftCode a.code ≠ normalizeGiftCode b.code))
    (hs : ∀ c ∈ l, normalizeGiftCode c.code ∉ seen) :
    removeDuplicateCodesAux seen l = l := by
  induction l generalizing seen with
  | nil => rfl
  | cons a t ih =>
    simp only [removeDuplicateCodesAux]
    rw [if_neg (hs a (List.mem_cons_self a t))]
    congr 1
    apply ih
    · exact (List.pairwise_cons.mp hl).2
    · intro c hc
      simp only [List.mem_cons, not_or]
      refine ⟨?_, hs c (List.mem_cons_of_mem _ hc)⟩
      have hne := (List.pairwise_cons.mp hl).1 c hc
      exact fun he => hne he.symm

/-- `findIdx` returns `i` when position `i` carries the first element
satisfying the predicate. -/
theorem findIdx_eq_of_first {α : Type} (p : α → Bool) (l : List α) (i : ℕ)
    (hi : i < l.length) (hp : p (l.get ⟨i, hi⟩) = true)
    (hfirst : ∀ j (hj : j < i), p (l.get ⟨j, Nat.lt_trans hj hi⟩) = false) :
    l.findIdx p = i := by
  induction l generalizing i with
  | nil => exact absurd hi (by simp)
  | cons a t ih =>
    cases i with
    | zero =>
      have hpa : p a = true := hp
      simp [List.findIdx_cons, hpa]
    | succ n =>
      have hpa : p a = false := hfirst 0 (Nat.succ_pos n)
      have hrec := ih n (Nat.lt_of_succ_lt_succ hi) hp
        (fun j hj => hfirst (j + 1) (Nat.succ_lt_succ hj))
      simp [List.findIdx_cons, hpa, hrec]

/-- Every entry kept by the aggregator's dedup filter sits at the first
index carrying its `code` — first occurrence wins. -/
theorem aggregatorDedup_keeps_first (l : List GiftCodeDetection) :
    ∀ c ∈ aggregatorDedup l,
      l.get? (l.findIdx (fun d => d.code == c.code)) = some c := by
  intro c hc
  simp only [aggregatorDedup, List.mem_map, List.mem_filter] at hc
  obtain ⟨⟨i, c'⟩, ⟨hmem, hcond⟩, rfl⟩ := hc
  have hidx : l.findIdx (fun d => d.code == c'.code) = i := by simpa using hcond
  rw [hidx]
  exact List.mem_enum_iff_get?.mp hmem

/-- No two entries kept by the aggregator's dedup share a `code`. -/
theorem aggregatorDedup_pairwise (l : List GiftCodeDetection) :
    (aggregatorDedup l).Pairwise (fun a b => a.code ≠ b.code) := by
  have hnodup : l.enum.Nodup := (List.nodup_enum_map_fst l).of_map _
  have hfil :
      (l.enum.filter
        (fun p => decide (l.findIdx (fun c => c.code == p.2.code) = p.1))).Nodup :=
    hnodup.filter _
  unfold aggregatorDedup
  rw [List.pairwise_map]
  refine hfil.imp_of_mem ?_
  intro x y hx hy hne hcodes
  apply hne
  obtain ⟨hmx, hcx⟩ := List.mem_filter.mp hx
  obtain ⟨hmy, hcy⟩ := List.mem_filter.mp hy
  have hcx' : l.findIdx (fun c => c.code == x.2.code) = x.1 := by simpa using hcx
  have hcy' : l.findIdx (fun c => c.code == y.2.code) = y.1 := by simpa using hcy
  have hpred : (fun c : GiftCodeDetection => c.code == x.2.code) =
      (fun c => c.code == y.2.code) := by
    funext d; rw [hcodes]
  have hidx : x.1 = y.1 := by rw [← hcx', ← hcy', hpred]
  have hx2 := List.mem_enum_iff_get?.mp hmx
  have hy2 := List.mem_enum_iff_get?.mp hmy
  rw [hidx] at hx2
  have hsnd : x.2 = y.2 := Option.some.inj (hx2.symm.trans hy2)
  exact Prod.ext hidx hsnd

/-- On a list with pairwise-distinct `code`s the aggregator's dedup filter
keeps everything. -/
theorem aggregatorDedup_eq_self (l : List GiftCodeDetection)
    (h : l.Pairwise (fun a b => a.code ≠ b.code)) : aggregatorDedup l = l := by
  unfold aggregatorDedup
  have hall : ∀ x ∈ l.enum,
      (fun p => decide (l.findIdx (fun c => c.code == p.2.code) = p.1)) x = true := by
    intro x hx
    have hget := List.mem_enum_iff_get?.mp hx
    obtain ⟨hlt, hgeteq⟩ := List.get?_eq_some.mp hget
    simp only [decide_eq_true_eq]
    apply findIdx_eq_of_first _ _ _ hlt
    · rw [hgeteq]
      exact beq_self_eq_true _
    · intro j hj
      have hpw := (List.pairwise_iff_get.mp h) ⟨j, Nat.lt_trans hj hlt⟩ ⟨x.1, hlt⟩ hj
      rw [hgeteq] at hpw
      simpa using hpw
  rw [List.filter_eq_self.mpr hall, List.enum_map_snd]

/-- **C4** Deduplication in the Pattern Validator (`removeDuplicateCodes`)
and in the Aggregator (`aggregatorDedup`, over detections whose `code` field
is already in normalized canonical form, as the pipeline guarantees):
no two kept entries share a normalized code; reapplication is the identity
(idempotence); the selection is keyed purely on the normalized-code sequence
(so confidence, timestamp and provenance are ignored); and for each key the
first occurrence is the one kept. -/
theorem dedup_by_normalized_code :
    (∀ l : List GiftCodeDetection, (removeDuplicateCodes l).Pairwise
        (fun a b => normalizeGiftCode a.code ≠ normalizeGiftCode b.code)) ∧
    (∀ l, removeDuplicateCodes (removeDuplicateCodes l) = removeDuplicateCodes l) ∧
    (∀ l k, (removeDuplicateCodes l).find? (fun c => normalizeGiftCode c.code == k) =
        l.find? (fun c => normalizeGiftCode c.code == k)) ∧
    (∀ l, removeDuplicateCodes l =
        filterByFlags (dedupKeepFlags [] (l.map (fun c => normalizeGiftCode c.code))) l) ∧
    (∀ l, (∀ c ∈ l, normalizeGiftCode c.code = c.code) →
        (aggregatorDedup l).Pairwise
          (fun a b => normalizeGiftCode a.code ≠ normalizeGiftCode b.code) ∧
        aggregatorDedup (aggregatorDedup l) = aggregatorDedup l ∧
        ∀ c ∈ aggregatorDedup l,
          l.get? (l.findIdx (fun d => d.code == c.code)) = some c) := by
  refine ⟨?_, ?_, ?_, ?_, ?_⟩
  · intro l
    exact removeDuplicateCodesAux_pairwise [] l
  · intro l
    exact removeDuplicateCodesAux_eq_self [] _
      (removeDuplicateCodesAux_pairwise [] l) (fun c _ => List.not_mem_nil _)
  · intro l k
    have h := removeDuplicateCodesAux_findFirst [] l k
    rwa [if_neg (List.not_mem_nil k)] at h
  · intro l
    exact removeDuplicateCodesAux_eq_filterByFlags [] l
  · intro l hN
    have hmem : ∀ c ∈ aggregatorDedup l, c ∈ l := by
      intro c hc
      exact List.get?_mem (aggregatorDedup_keeps_first l c hc)
    refine ⟨?_, ?_, aggregatorDedup_keeps_first l⟩
    · refine (aggregatorDedup_pairwise l).imp_of_mem ?_
      intro a b ha hb hne
      rw [hN a (hmem a ha), hN b (hmem b hb)]
      exact hne
    · exact aggregatorDedup_eq_self _ (aggregatorDedup_pairwise l)

/-- Witness for C4's aggregator half at a concrete normalized detection
list. -/
theorem dedup_by_normalized_code_witness :
    (aggregatorDedup exDetList).Pairwise
      (fun a b => normalizeGiftCode a.code ≠ normalizeGiftCode b.code) ∧
    aggregatorDedup (aggregatorDedup exDetList) = aggregatorDedup exDetList :=
  ⟨(dedup_by_normalized_code.2.2.2.2 exDetList (by decide)).1,
   (dedup_by_normalized_code.2.2.2.2 exDetList (by decide)).2.1⟩

/-- The per-OCR scan depends on its input only through the uppercased text,
the confidence and the bounding box. -/
theorem scanOCRResult_congr (timestamp : Option ℚ) (r₁ r₂ : OCRResult)
    (htext : jsToUpperCase r₁.text = jsToUpperCase r₂.text)
    (hconf : r₁.confidence = r₂.confidence)
    (hbox : r₁.boundingBox = r₂.boundingBox) :
    scanOCRResult timestamp r₁ = scanOCRResult timestamp r₂ := by
  simp only [scanOCRResult, htext, hconf, hbox]

/-- **C10** `detectGiftCodes` is insensitive to the letter case of the input
texts: two OCR-result lists that agree on uppercased text, confidence and
bounding box (in particular, lists differing only in letter case) produce
equal detection lists, because each text is uppercased before any pattern is
applied. -/
theorem detectGiftCodes_case_insensitive (l₁ l₂ : List OCRResult)
    (videoId : String) (timestamp : Option ℚ)
    (h : l₁.map (fun r => (jsToUpperCase r.text, r.confidence, r.boundingBox)) =
         l₂.map (fun r => (jsToUpperCase r.text, r.confidence, r.boundingBox))) :
    detectGiftCodes l₁ videoId timestamp = detectGiftCodes l₂ videoId timestamp := by
  unfold detectGiftCodes
  congr 1
  induction l₁ generalizing l₂ with
  | nil =>
    cases l₂ with
    | nil => rfl
    | cons b t₂ => simp at h
  | cons a t ih =>
    cases l₂ with
    | nil => simp at h
    | cons b t₂ =>
      simp only [List.map_cons, List.cons.injEq, Prod.mk.injEq] at h
      obtain ⟨⟨htext, hconf, hbox⟩, htail⟩ := h
      simp only [List.flatMap_cons]
      rw [scanOCRResult_congr timestamp a b htext hconf hbox, ih t₂ htail]

/-- Witness for C10: a lowercase-written code is detected identically to its
uppercase form. -/
theorem detectGiftCodes_case_insensitive_witness :
    detectGiftCodes [exOcrLower] ("vid") none =
      detectGiftCodes [exOcrUpper] ("vid") none :=
  detectGiftCodes_case_insensitive [exOcrLower] [exOcrUpper] ("vid") none (by
    simp only [exOcrLower, exOcrUpper, List.map_cons, List.map_nil,
      List.cons.injEq, Prod.mk.injEq, and_true, eq_self_iff_true]
    decide)

end YtScanner
